import Mathlib

/-!
Verification of the `istoki-catalog` build pipeline (`scripts/build_catalog.py`).

The script converts a four-sheet workbook (meta / songs / versions / glossary)
into two JSON artifacts, `songs.json` and `latest.json`, with a strict
versioning gate guarding publication.  This file gives a shallow embedding of
the script: spreadsheet cells are `Option String` (the value of `str(v)` for a
non-empty cell, `none` for an empty one), sheets are lists of rows, Python
dicts are insertion-ordered association lists with last-binding-wins lookup,
and the fallible `main` is a pure `Except`-valued function.  `json.loads` of
previously published files is abstracted: the filesystem hands the gate either
a decoded JSON value or a decode failure.  The sha256 comparison of canonical
byte strings is modeled as byte-string equality.
-/

set_option maxHeartbeats 1000000

/-- A spreadsheet cell: `none` for an empty cell, otherwise the `str()` image
of its value. -/
abbrev Cell := Option String

abbrev Row := List Cell

abbrev Sheet := List Row

/-- A workbook: named sheets in file order. -/
abbrev Workbook := List (String × Sheet)

/-- Python-dict lookup on an insertion-ordered association list: the binding
added last wins (dict assignment overwrites). -/
def dictGet {α : Type} : List (String × α) → String → Option α
  | [], _ => none
  | (k, v) :: rest, key =>
    match dictGet rest key with
    | some r => some r
    | none => if k = key then some v else none

/-- In-place update of the value bound to `key` (applied to every binding of
that key; keys are unique wherever this is used). -/
def dictUpdate {α : Type} (l : List (String × α)) (key : String) (f : α → α) :
    List (String × α) :=
  l.map (fun kv => if kv.1 = key then (kv.1, f kv.2) else kv)

/-- Python-dict assignment: overwrite the binding if present, else append. -/
def dictSet {α : Type} (l : List (String × α)) (key : String) (v : α) :
    List (String × α) :=
  if (dictGet l key).isSome then dictUpdate l key (fun _ => v) else l ++ [(key, v)]

/-- Python `str.strip()`: whitespace removed from both ends (by structural
recursion on the character list, so that concrete runs evaluate). -/
def pyStrip (s : String) : String :=
  String.mk (((s.data.dropWhile Char.isWhitespace).reverse.dropWhile Char.isWhitespace).reverse)

/-- Python `str.lower()` (ASCII case folding, as `Char.toLower`). -/
def pyLower (s : String) : String := String.mk (s.data.map Char.toLower)

/-- `_s`: cell value to trimmed string, `None` to `''`. -/
def _s (v : Cell) : String := pyStrip (v.getD "")

/-- `_split_list`: split by `;` into trimmed non-empty items. -/
def _split_list (cell : Cell) : List String :=
  let raw := _s cell
  if raw = "" then []
  else ((raw.splitOn ";").map pyStrip).filter (fun p => p ≠ "")

/-- `_opt`: optional string, `''` to `None`. -/
def _opt (cell : Cell) : Option String :=
  let t := _s cell
  if t = "" then none else some t

/-- `_fail`: every fatal error message carries the `ERROR: ` marker of
`SystemExit(f"ERROR: \x7bmsg\x7d")`. -/
def _fail {α : Type} (msg : String) : Except String α :=
  Except.error ("ERROR: " ++ msg)

/-- `read_meta`: two-column key/value rows; blank keys skipped; a repeated key
overwrites (here: is appended, with last-wins lookup). -/
def readMeta (ws : Sheet) : List (String × String) :=
  ws.foldl
    (fun acc row =>
      let key := _s ((row.get? 0).join)
      let val := if row.length > 1 then _s ((row.get? 1).join) else ""
      if key = "" then acc else acc ++ [(key, val)])
    []

/-- `sheet_headers`: name-to-column-index map from the first row's non-blank
cells. -/
def sheetHeaders (ws : Sheet) : List (String × Nat) :=
  match ws with
  | [] => []
  | first :: _ =>
    first.enum.foldl
      (fun acc p =>
        let name := _s p.2
        if name = "" then acc else acc ++ [(name, p.1)])
      []

/-- `get_cell`: look the column index up by name; absent column or an index
past the row's end yields `None`. -/
def get_cell (row : Row) (h : List (String × Nat)) (name : String) : Cell :=
  match dictGet h name with
  | none => none
  | some idx => (row.get? idx).join

/-- A row is skipped when every cell is blank after trimming. -/
def rowBlank (row : Row) : Bool := row.all (fun c => _s c == "")

/-- JSON values as produced by the script (numbers restricted to integers: the
catalog writes only `catalogVersion` as a number). -/
inductive Json where
  | null : Json
  | bool : Bool → Json
  | num : Int → Json
  | str : String → Json
  | arr : List Json → Json
  | obj : List (String × Json) → Json
deriving Repr

def hexDigit (n : Nat) : Char :=
  if n < 10 then Char.ofNat (48 + n) else Char.ofNat (87 + (n - 10))

/-- JSON string escaping with `ensure_ascii=False`: only the two mandatory
escapes, the control-character shorthands, and `\u00XX` for other control
characters; all other characters (including non-ASCII) are emitted literally. -/
def escChar (c : Char) : String :=
  if c = '"' then "\\\""
  else if c = '\\' then "\\\\"
  else if c = '\n' then "\\n"
  else if c = '\r' then "\\r"
  else if c = '\t' then "\\t"
  else if c.toNat = 8 then "\\b"
  else if c.toNat = 12 then "\\f"
  else if c.toNat < 32 then "\\u00" ++ String.mk [hexDigit (c.toNat / 16), hexDigit (c.toNat % 16)]
  else String.singleton c

def dumpStr (s : String) : String :=
  "\"" ++ String.join (s.data.map escChar) ++ "\""

def spaces (n : Nat) : String := String.mk (List.replicate n ' ')

mutual

/-- `json.dumps(..., ensure_ascii=False, indent=2)` at nesting depth `ind`. -/
def dumpJson (ind : Nat) : Json → String
  | .null => "null"
  | .bool true => "true"
  | .bool false => "false"
  | .num i => toString i
  | .str s => dumpStr s
  | .arr [] => "[]"
  | .arr (x :: xs) => "[\n" ++ dumpItems (ind + 1) (x :: xs) ++ "\n" ++ spaces (2 * ind) ++ "]"
  | .obj [] => "\x7b\x7d"
  | .obj (kv :: kvs) =>
    "\x7b\n" ++ dumpFields (ind + 1) (kv :: kvs) ++ "\n" ++ spaces (2 * ind) ++ "\x7d"

def dumpItems (ind : Nat) : List Json → String
  | [] => ""
  | [x] => spaces (2 * ind) ++ dumpJson ind x
  | x :: y :: xs => spaces (2 * ind) ++ dumpJson ind x ++ ",\n" ++ dumpItems ind (y :: xs)

def dumpFields (ind : Nat) : List (String × Json) → String
  | [] => ""
  | [(k, v)] => spaces (2 * ind) ++ dumpStr k ++ ": " ++ dumpJson ind v
  | (k, v) :: kv :: kvs =>
    spaces (2 * ind) ++ dumpStr k ++ ": " ++ dumpJson ind v ++ ",\n" ++ dumpFields ind (kv :: kvs)

end

/-- Top-level `json.dumps(obj, ensure_ascii=False, indent=2)`. -/
def jsonDumps (j : Json) : String := dumpJson 0 j

mutual

/-- Python `repr()` of a decoded JSON value (used by `str()` on containers). -/
def pyRepr : Json → String
  | .null => "None"
  | .bool true => "True"
  | .bool false => "False"
  | .num i => toString i
  | .str s => "\x27" ++ s ++ "\x27"
  | .arr xs => "[" ++ pyReprList xs ++ "]"
  | .obj kvs => "\x7b" ++ pyReprObj kvs ++ "\x7d"

def pyReprList : List Json → String
  | [] => ""
  | [x] => pyRepr x
  | x :: y :: xs => pyRepr x ++ ", " ++ pyReprList (y :: xs)

def pyReprObj : List (String × Json) → String
  | [] => ""
  | [(k, v)] => "\x27" ++ k ++ "\x27: " ++ pyRepr v
  | (k, v) :: kv :: kvs => "\x27" ++ k ++ "\x27: " ++ pyRepr v ++ ", " ++ pyReprObj (kv :: kvs)

end

/-- Python `str()` of a decoded JSON value. -/
def pyStr : Json → String
  | .null => "None"
  | .bool true => "True"
  | .bool false => "False"
  | .num i => toString i
  | .str s => s
  | .arr xs => pyRepr (.arr xs)
  | .obj kvs => pyRepr (.obj kvs)

def parseDigits : List Char → Option Nat
  | [] => none
  | cs =>
    if cs.all Char.isDigit then
      some (cs.foldl (fun n c => 10 * n + (c.toNat - 48)) 0)
    else none

/-- Models Python `int()` applied to a string: surrounding whitespace stripped,
an optional sign, then decimal digits; anything else raises `ValueError`. -/
def pyIntOfString (s : String) : Option Int :=
  match (pyStrip s).data with
  | [] => none
  | '+' :: rest => (parseDigits rest).map Int.ofNat
  | '-' :: rest => (parseDigits rest).map (fun n => -(n : Int))
  | cs => (parseDigits cs).map Int.ofNat

/-- Models Python `int()` applied to a decoded JSON value: numbers and bools
convert, strings go through string conversion, anything else raises. -/
def pyIntOfJson : Json → Option Int
  | .num i => some i
  | .bool true => some 1
  | .bool false => some 0
  | .str s => pyIntOfString s
  | _ => none

/-- Python type name of a decoded JSON value (as it appears in exception
messages). -/
def pyTypeName : Json → String
  | .null => "NoneType"
  | .bool _ => "bool"
  | .num _ => "int"
  | .str _ => "str"
  | .arr _ => "list"
  | .obj _ => "dict"

def pyIntErrMsg : Json → String
  | .str s => "invalid literal for int() with base 10: \x27" ++ s ++ "\x27"
  | j => "int() argument must be a string, a bytes-like object or a real number, not \x27"
      ++ pyTypeName j ++ "\x27"

/-- A song record, fields in the insertion order of the dict literal of
`build_song_dict`. -/
structure SongRec where
  id : String
  title : String
  altTitles : String
  hub : String
  regionDetail : String
  genre : String
  themes : List String
  cossackHost : String
  languageTag : String
  contextShort : String
  lyrics : String
  glossary : List (String × String)
  sourceNote : String
  audioUrl : String
  minusUrl : String
  videoUrl : String
  rightsStatus : String
  externalLinks : List String
  versions : List (List (String × String))
deriving Repr, DecidableEq

/-- `build_song_dict`: the four required fields checked in order, then the
record with its defaults (`languageTag` falls back to the fixed locale,
`rightsStatus` to the sentinel `NONE`; `glossary`/`versions` filled later). -/
def build_song_dict (row : Row) (h : List (String × Nat)) : Except String SongRec :=
  let song_id := _s (get_cell row h "id")
  let title := _s (get_cell row h "title")
  let hub := _s (get_cell row h "hub")
  let lyrics := _s (get_cell row h "lyrics")
  if song_id = "" then _fail "songs: empty id"
  else if title = "" then _fail ("songs: empty title for id=" ++ song_id)
  else if hub = "" then _fail ("songs: empty hub for id=" ++ song_id)
  else if lyrics = "" then _fail ("songs: empty lyrics for id=" ++ song_id)
  else Except.ok
    { id := song_id
      title := title
      altTitles := _s (get_cell row h "altTitles")
      hub := hub
      regionDetail := _s (get_cell row h "regionDetail")
      genre := _s (get_cell row h "genre")
      themes := _split_list (get_cell row h "themes")
      cossackHost := _s (get_cell row h "cossackHost")
      languageTag :=
        if _s (get_cell row h "languageTag") = "" then "русский"
        else _s (get_cell row h "languageTag")
      contextShort := _s (get_cell row h "contextShort")
      lyrics := lyrics
      glossary := []
      sourceNote := _s (get_cell row h "sourceNote")
      audioUrl := _s (get_cell row h "audioUrl")
      minusUrl := _s (get_cell row h "minusUrl")
      videoUrl := _s (get_cell row h "videoUrl")
      rightsStatus :=
        if _s (get_cell row h "rightsStatus") = "" then "NONE"
        else _s (get_cell row h "rightsStatus")
      externalLinks := _split_list (get_cell row h "externalLinks")
      versions := [] }

/-- The optional override columns of the versions sheet, in emission order. -/
def verOptKeys : List String :=
  ["title", "lyrics", "sourceNote", "audioUrl", "minusUrl", "videoUrl"]

/-- `build_version_dict`: required `songId` and `id`, then the nullable
override fields, each included only when non-blank. -/
def build_version_dict (row : Row) (h : List (String × Nat)) :
    Except String (String × List (String × String)) :=
  let song_id := _s (get_cell row h "songId")
  let ver_id := _s (get_cell row h "id")
  if song_id = "" then _fail "versions: empty songId"
  else if ver_id = "" then _fail ("versions: empty id for songId=" ++ song_id)
  else Except.ok (song_id,
    ("id", ver_id) ::
      verOptKeys.filterMap (fun k => (_opt (get_cell row h k)).map (fun v => (k, v))))

/-- `build_glossary_item`: required `songId`, `term`, `definition`. -/
def build_glossary_item (row : Row) (h : List (String × Nat)) :
    Except String (String × (String × String)) :=
  let song_id := _s (get_cell row h "songId")
  let term := _s (get_cell row h "term")
  let definition := _s (get_cell row h "definition")
  if song_id = "" then _fail "glossary: empty songId"
  else if term = "" then _fail ("glossary: empty term for songId=" ++ song_id)
  else if definition = "" then
    _fail ("glossary: empty definition for songId=" ++ (song_id ++ (", term=" ++ term)))
  else Except.ok (song_id, (term, definition))

/-- Serialization of a glossary item, key order of the dict literal. -/
def glossJson (g : String × String) : Json :=
  Json.obj [("term", Json.str g.1), ("definition", Json.str g.2)]

/-- Serialization of a version record: the keys present in the dict, in
insertion order, every value a JSON string. -/
def verJson (ver : List (String × String)) : Json :=
  Json.obj (ver.map (fun p => (p.1, Json.str p.2)))

/-- The key/value list of a serialized song, in the dict literal's insertion
order. -/
def songKVs (s : SongRec) : List (String × Json) :=
  [("id", Json.str s.id),
   ("title", Json.str s.title),
   ("altTitles", Json.str s.altTitles),
   ("hub", Json.str s.hub),
   ("regionDetail", Json.str s.regionDetail),
   ("genre", Json.str s.genre),
   ("themes", Json.arr (s.themes.map Json.str)),
   ("cossackHost", Json.str s.cossackHost),
   ("languageTag", Json.str s.languageTag),
   ("contextShort", Json.str s.contextShort),
   ("lyrics", Json.str s.lyrics),
   ("glossary", Json.arr (s.glossary.map glossJson)),
   ("sourceNote", Json.str s.sourceNote),
   ("audioUrl", Json.str s.audioUrl),
   ("minusUrl", Json.str s.minusUrl),
   ("videoUrl", Json.str s.videoUrl),
   ("rightsStatus", Json.str s.rightsStatus),
   ("externalLinks", Json.arr (s.externalLinks.map Json.str)),
   ("versions", Json.arr (s.versions.map verJson))]

def songJson (s : SongRec) : Json := Json.obj (songKVs s)

/-- The songs-sheet loop of `main`: skip blank rows, validate, reject
duplicate ids (dict insertion appends). -/
def processSongs (h : List (String × Nat)) :
    Nat → List Row → List (String × SongRec) → Except String (List (String × SongRec))
  | _, [], acc => Except.ok acc
  | idx, row :: rest, acc =>
    if rowBlank row then processSongs h (idx + 1) rest acc
    else
      match build_song_dict row h with
      | Except.error e => Except.error e
      | Except.ok song =>
        if (dictGet acc song.id).isSome then
          _fail ("songs: duplicate id \x27" ++ (song.id ++ ("\x27 (row " ++ (toString idx ++ ")"))))
        else processSongs h (idx + 1) rest (acc ++ [(song.id, song)])

/-- The versions-sheet loop of `main`: skip blank rows, validate, resolve the
`songId` reference, reject a duplicate version id within one song, append the
record to the owning song. -/
def processVersions (h : List (String × Nat)) :
    Nat → List Row → List (String × SongRec) → List (String × List String) →
    Except String (List (String × SongRec))
  | _, [], sbi, _ => Except.ok sbi
  | idx, row :: rest, sbi, seen =>
    if rowBlank row then processVersions h (idx + 1) rest sbi seen
    else
      match build_version_dict row h with
      | Except.error e => Except.error e
      | Except.ok (song_id, ver) =>
        match dictGet sbi song_id with
        | none =>
          _fail ("versions: unknown songId \x27" ++ (song_id ++ ("\x27 (row " ++ (toString idx ++ ")"))))
        | some _ =>
          let verId := (dictGet ver "id").getD ""
          let seenIds := (dictGet seen song_id).getD []
          if verId ∈ seenIds then
            _fail ("versions: duplicate version id \x27" ++ (verId ++ ("\x27 for songId=" ++
              (song_id ++ (" (row " ++ (toString idx ++ ")"))))))
          else
            processVersions h (idx + 1) rest
              (dictUpdate sbi song_id (fun s => { s with versions := s.versions ++ [ver] }))
              (dictSet seen song_id (seenIds ++ [verId]))

/-- The glossary-sheet loop of `main`: skip blank rows, validate, resolve the
`songId` reference, reject a duplicate normalized term within one song, append
the item.  The cross-song collision pass is print-only (warnings) and changes
no state used afterwards, so it is not modeled. -/
def processGlossary (h : List (String × Nat)) :
    Nat → List Row → List (String × SongRec) → List (String × List String) →
    Except String (List (String × SongRec))
  | _, [], sbi, _ => Except.ok sbi
  | idx, row :: rest, sbi, seen =>
    if rowBlank row then processGlossary h (idx + 1) rest sbi seen
    else
      match build_glossary_item row h with
      | Except.error e => Except.error e
      | Except.ok (song_id, item) =>
        match dictGet sbi song_id with
        | none =>
          _fail ("glossary: unknown songId \x27" ++ (song_id ++ ("\x27 (row " ++ (toString idx ++ ")"))))
        | some _ =>
          let seen_terms := (dictGet seen song_id).getD []
          let term_norm := pyLower (pyStrip item.1)
          if term_norm ∈ seen_terms then
            _fail ("glossary: duplicate term \x27" ++ (item.1 ++ ("\x27 within songId=" ++
              (song_id ++ (" (row " ++ (toString idx ++ ")"))))))
          else
            processGlossary h (idx + 1) rest
              (dictUpdate sbi song_id (fun s => { s with glossary := s.glossary ++ [item] }))
              (dictSet seen song_id (seen_terms ++ [term_norm]))

/-- The fixed published location of `songs.json` (`PAGES_BASE + SONGS_JSON_NAME`). -/
def SONGS_URL : String := "https://aleyakim.github.io/istoki-catalog/songs.json"

/-- The `latest.json` manifest record, fields in dict insertion order. -/
structure Manifest where
  catalogVersion : Int
  publishedAt : String
  songsUrl : String
  baseMediaUrl : String
deriving Repr, DecidableEq

def manifestJson (m : Manifest) : Json :=
  Json.obj
    [("catalogVersion", Json.num m.catalogVersion),
     ("publishedAt", Json.str m.publishedAt),
     ("songsUrl", Json.str m.songsUrl),
     ("baseMediaUrl", Json.str m.baseMediaUrl)]

/-- What a successful run produces: the ordered song list, the canonical
`songs.json` byte string, and the manifest (identical copies of the two files
go to `dist/` and `docs/`). -/
structure Output where
  songs : List SongRec
  songsJson : String
  manifest : Manifest
deriving Repr, DecidableEq

/-- The four file writes of a successful run, in the order the script performs
them; a run that failed wrote nothing (all fatal checks precede the first
write). -/
def filesWritten (r : Except String Output) : List (String × String) :=
  match r with
  | Except.error _ => []
  | Except.ok o =>
    [("dist/songs.json", o.songsJson),
     ("dist/latest.json", jsonDumps (manifestJson o.manifest)),
     ("docs/songs.json", o.songsJson),
     ("docs/latest.json", jsonDumps (manifestJson o.manifest))]

/-- `STRICT_VERSIONING` parsing: a fixed small set of case-insensitive truthy
tokens. -/
def strictTruthy (env : String) : Bool :=
  ["1", "true", "yes", "on"].contains (pyLower (pyStrip env))

/-- The `try` block of the strict gate: decode `docs/latest.json`, read
`catalogVersion` (default `0`) through `int()`, and `baseMediaUrl` (default
`''`) through `str().strip()`; any exception in the block is the fatal
`cannot parse` error.  The argument is the decode outcome of the old manifest
bytes: `.error` when `json.loads` (or the UTF-8 decode) raises. -/
def parseOldManifest (oldLatest : Except String Json) : Except String (Int × String) :=
  match oldLatest with
  | Except.error e =>
    _fail ("STRICT_VERSIONING: cannot parse existing docs/latest.json: " ++ e)
  | Except.ok (Json.obj kvs) =>
    match pyIntOfJson ((dictGet kvs "catalogVersion").getD (Json.num 0)) with
    | none =>
      _fail ("STRICT_VERSIONING: cannot parse existing docs/latest.json: "
        ++ pyIntErrMsg ((dictGet kvs "catalogVersion").getD (Json.num 0)))
    | some ov =>
      Except.ok (ov, pyStrip (pyStr ((dictGet kvs "baseMediaUrl").getD (Json.str ""))))
  | Except.ok j =>
    _fail ("STRICT_VERSIONING: cannot parse existing docs/latest.json: \x27"
      ++ (pyTypeName j ++ "\x27 object has no attribute \x27get\x27"))

/-- The fatal message of the versioning gate: old and new version numbers and
the list of reasons, followed by the fixed remediation advice. -/
def gateMsg (catalog_version old_version : Int)
    (old_base_media_url new_base_trimmed : String)
    (songs_changed base_media_changed : Bool) : String :=
  "STRICT_VERSIONING: content changed but catalogVersion was not bumped. old="
    ++ (toString old_version ++ (", new=" ++ (toString catalog_version ++ (". Причина: "
    ++ (String.intercalate ", "
          ((if songs_changed then ["songs.json changed"] else []) ++
           (if base_media_changed then
             ["baseMediaUrl changed (\x27" ++ old_base_media_url ++ "\x27 -> \x27"
               ++ new_base_trimmed ++ "\x27)"]
            else []))
      ++ ". Открой input/istoki.xlsx → sheet meta → catalogVersion и увеличь (например +1), затем commit/push.")))))

/-- The rest of the strict gate once `old_version` and `old_base_media_url`
have been read from the old manifest: compute `songs_changed` (absent old
catalog: `False`; unparseable: fatal; otherwise compare the re-canonicalized
bytes — sha256 equality modeled as byte-string equality), compute
`base_media_changed`, and block when something changed without a version
bump. -/
def gateAfter (catalog_version : Int) (base_media_url new_songs_json : String)
    (old_version : Int) (old_base_media_url : String)
    (oldSongs : Option (Except String Json)) : Except String Unit :=
  match (match oldSongs with
         | none => Except.ok false
         | some (Except.error e) =>
           _fail ("STRICT_VERSIONING: cannot parse existing docs/songs.json: " ++ e)
         | some (Except.ok oldObj) =>
           Except.ok (jsonDumps oldObj != new_songs_json) :
         Except String Bool) with
  | Except.error e => Except.error e
  | Except.ok songs_changed =>
    let base_media_changed := old_base_media_url != pyStrip base_media_url
    if (songs_changed || base_media_changed) && decide (catalog_version ≤ old_version) then
      _fail (gateMsg catalog_version old_version old_base_media_url
        (pyStrip base_media_url) songs_changed base_media_changed)
    else Except.ok ()

/-- The strict versioning gate (lines 293-324 of the script), reached when
strict mode is on and `docs/latest.json` exists.  `oldSongs` is the decode
outcome of `docs/songs.json` when that file exists. -/
def strictGate (catalog_version : Int) (base_media_url : String)
    (new_songs_json : String) (oldLatest : Except String Json)
    (oldSongs : Option (Except String Json)) : Except String Unit :=
  match parseOldManifest oldLatest with
  | Except.error e => Except.error e
  | Except.ok (old_version, old_base_media_url) =>
    gateAfter catalog_version base_media_url new_songs_json old_version
      old_base_media_url oldSongs

/-- Lookup of a sheet after its presence was checked. -/
def sheetOf (wb : Workbook) (name : String) : Sheet := (dictGet wb name).getD []

/-- The sheet-presence loop of `main`, in loop order. -/
def checkSheets (wb : Workbook) : Except String Unit :=
  if (dictGet wb "meta").isNone then _fail "Missing sheet \x27meta\x27 in input/istoki.xlsx"
  else if (dictGet wb "songs").isNone then _fail "Missing sheet \x27songs\x27 in input/istoki.xlsx"
  else if (dictGet wb "versions").isNone then
    _fail "Missing sheet \x27versions\x27 in input/istoki.xlsx"
  else if (dictGet wb "glossary").isNone then
    _fail "Missing sheet \x27glossary\x27 in input/istoki.xlsx"
  else Except.ok ()

/-- The meta stage: require `catalogVersion`, parse it with `int()`, default
`baseMediaUrl` to `''` and strip it. -/
def metaStage (wb : Workbook) : Except String (Int × String) :=
  let meta := readMeta (sheetOf wb "meta")
  match dictGet meta "catalogVersion" with
  | none => _fail "meta: missing catalogVersion"
  | some cvs =>
    match pyIntOfString cvs with
    | none => _fail ("meta: catalogVersion is not int: " ++ cvs)
    | some cv => Except.ok (cv, pyStrip ((dictGet meta "baseMediaUrl").getD ""))

/-- The songs stage: required columns, the row loop, and the non-empty check. -/
def songsStage (wb : Workbook) : Except String (List (String × SongRec)) :=
  let hs := sheetHeaders (sheetOf wb "songs")
  if (dictGet hs "id").isNone then _fail "songs: missing required column \x27id\x27"
  else if (dictGet hs "title").isNone then _fail "songs: missing required column \x27title\x27"
  else if (dictGet hs "hub").isNone then _fail "songs: missing required column \x27hub\x27"
  else if (dictGet hs "lyrics").isNone then _fail "songs: missing required column \x27lyrics\x27"
  else
    match processSongs hs 2 ((sheetOf wb "songs").drop 1) [] with
    | Except.error e => Except.error e
    | Except.ok sbi =>
      if sbi.isEmpty then _fail "songs: no songs found" else Except.ok sbi

/-- The versions stage: required columns, then the row loop. -/
def versionsStage (wb : Workbook) (sbi : List (String × SongRec)) :
    Except String (List (String × SongRec)) :=
  let hv := sheetHeaders (sheetOf wb "versions")
  if (dictGet hv "songId").isNone || (dictGet hv "id").isNone then
    _fail "versions: required columns are \x27songId\x27 and \x27id\x27"
  else processVersions hv 2 ((sheetOf wb "versions").drop 1) sbi []

/-- The glossary stage: required columns, then the row loop. -/
def glossaryStage (wb : Workbook) (sbi : List (String × SongRec)) :
    Except String (List (String × SongRec)) :=
  let hg := sheetHeaders (sheetOf wb "glossary")
  if (dictGet hg "songId").isNone then _fail "glossary: missing required column \x27songId\x27"
  else if (dictGet hg "term").isNone then _fail "glossary: missing required column \x27term\x27"
  else if (dictGet hg "definition").isNone then
    _fail "glossary: missing required column \x27definition\x27"
  else processGlossary hg 2 ((sheetOf wb "glossary").drop 1) sbi []

/-- Everything `main` computes before the versioning gate: validation and
aggregation of the three data sheets, the sorted song list, and the canonical
`songs.json` byte string. -/
structure Content where
  songs : List SongRec
  songsJson : String
  catalogVersion : Int
  baseMediaUrl : String
deriving Repr, DecidableEq

def buildContent (wb : Workbook) : Except String Content :=
  match checkSheets wb with
  | Except.error e => Except.error e
  | Except.ok _ =>
    match metaStage wb with
    | Except.error e => Except.error e
    | Except.ok (cv, bmu) =>
      match songsStage wb with
      | Except.error e => Except.error e
      | Except.ok sbi =>
        match versionsStage wb sbi with
        | Except.error e => Except.error e
        | Except.ok sbi2 =>
          match glossaryStage wb sbi2 with
          | Except.error e => Except.error e
          | Except.ok sbi3 =>
            let sortedKeys := List.insertionSort (fun a b => a ≤ b) (sbi3.map Prod.fst)
            let songs := sortedKeys.filterMap (fun k => dictGet sbi3 k)
            Except.ok
              { songs := songs
                songsJson := jsonDumps (Json.arr (songs.map songJson))
                catalogVersion := cv
                baseMediaUrl := bmu }

/-- `main`, as a function of the input workbook (`none`: the input file does
not exist), the raw `STRICT_VERSIONING` value, the decode outcomes of the two
previously published files (`none`: the file does not exist), and the current
UTC timestamp.  All fatal checks happen before the success value (the file
writes) is produced. -/
def mainRun (input : Option Workbook) (strictEnv : String)
    (oldLatest oldSongs : Option (Except String Json)) (now : String) :
    Except String Output :=
  match input with
  | none => _fail "Input file not found: input/istoki.xlsx"
  | some wb =>
    match buildContent wb with
    | Except.error e => Except.error e
    | Except.ok c =>
      match (if strictTruthy strictEnv then
               match oldLatest with
               | some ol => strictGate c.catalogVersion c.baseMediaUrl c.songsJson ol oldSongs
               | none => Except.ok ()
             else Except.ok ()) with
      | Except.error e => Except.error e
      | Except.ok _ =>
        Except.ok
          { songs := c.songs
            songsJson := c.songsJson
            manifest :=
              { catalogVersion := c.catalogVersion
                publishedAt := now
                songsUrl := SONGS_URL
                baseMediaUrl := c.baseMediaUrl } }

/-- Specification-side description (from the spec's words, for the
order-preservation claim): the version records contributed to song `s` by the
data rows of the versions sheet, in sheet order — a non-blank row contributes
its record exactly when its `songId` is `s`. -/
def rowVersionFor (h : List (String × Nat)) (s : String) (row : Row) :
    Option (List (String × String)) :=
  if rowBlank row then none
  else
    match build_version_dict row h with
    | Except.ok (sid, ver) => if sid = s then some ver else none
    | Except.error _ => none

def versionsFor (h : List (String × Nat)) (s : String) (rows : List Row) :
    List (List (String × String)) :=
  rows.filterMap (rowVersionFor h s)

/-- Specification-side description: the glossary items contributed to song `s`
by the data rows of the glossary sheet, in sheet order. -/
def rowGlossFor (h : List (String × Nat)) (s : String) (row : Row) :
    Option (String × String) :=
  if rowBlank row then none
  else
    match build_glossary_item row h with
    | Except.ok (sid, item) => if sid = s then some item else none
    | Except.error _ => none

def glossaryFor (h : List (String × Nat)) (s : String) (rows : List Row) :
    List (String × String) :=
  rows.filterMap (rowGlossFor h s)

/-- `needle` occurs contiguously inside `hay`. -/
def strContains (needle hay : String) : Prop := ∃ p q, hay = p ++ (needle ++ q)

/-- `hay` starts with `pre`. -/
def strStarts (pre hay : String) : Prop := ∃ rest, hay = pre ++ rest

/-- Whether a message mentions any decimal digit at all (a message with no
digit cannot name a row number). -/
def msgHasDigit (s : String) : Bool := s.data.any Char.isDigit

/-- A small concrete workbook used to instantiate the theorems: two songs in
reverse alphabetical order, two version rows and one glossary row. -/
def wbEx : Workbook :=
  [("meta",
    [[some "catalogVersion", some "1"],
     [some "baseMediaUrl", some "https://media.example/"]]),
   ("songs",
    [[some "id", some "title", some "hub", some "lyrics", some "altTitles"],
     [some "b", some "T2", some "H", some "L2", none],
     [some "a", some "T1", some "H", some "L1", some "Alt"]]),
   ("versions",
    [[some "songId", some "id", some "audioUrl"],
     [some "a", some "v1", some "http://x"],
     [some "a", some "v2", some "  "]]),
   ("glossary",
    [[some "songId", some "term", some "definition"],
     [some "a", some "Term", some "Def"]])]

def outExDefault : Output :=
  { songs := [], songsJson := "", manifest := ⟨0, "", "", ""⟩ }

/-- The output of the example run (permissive mode, no previous files). -/
def outEx : Output :=
  (mainRun (some wbEx) "" none none "2026-01-01T00:00:00Z").toOption.getD outExDefault

def songRecDefault : SongRec :=
  ⟨"", "", "", "", "", "", [], "", "", "", "", [], "", "", "", "", "", [], []⟩

def hsEx : List (String × Nat) := sheetHeaders (sheetOf wbEx "songs")

def hvEx : List (String × Nat) := sheetHeaders (sheetOf wbEx "versions")

def songRowEx : Row := [some "a", some "T1", some "H", some "L1", some "Alt"]

def recEx : SongRec := (build_song_dict songRowEx hsEx).toOption.getD songRecDefault

def verRowEx : Row := [some "a", some "v1", some "http://x"]

def verPairEx : String × List (String × String) :=
  (build_version_dict verRowEx hvEx).toOption.getD ("", [])

/-- The fifteen scalar (string-valued) keys of a serialized song record. -/
def songScalarKeys : List String :=
  ["id", "title", "altTitles", "hub", "regionDetail", "genre", "cossackHost",
   "languageTag", "contextShort", "lyrics", "sourceNote", "audioUrl", "minusUrl",
   "videoUrl", "rightsStatus"]

/-- All nineteen keys of a serialized song record, in emission order. -/
def songAllKeys : List String :=
  ["id", "title", "altTitles", "hub", "regionDetail", "genre", "themes",
   "cossackHost", "languageTag", "contextShort", "lyrics", "glossary",
   "sourceNote", "audioUrl", "minusUrl", "videoUrl", "rightsStatus",
   "externalLinks", "versions"]

theorem dictGet_append_single {α : Type} (l : List (String × α)) (k0 k : String) (v0 : α) :
    dictGet (l ++ [(k0, v0)]) k = if k0 = k then some v0 else dictGet l k := by
  induction l with
  | nil => by_cases hk : k0 = k <;> simp [dictGet, hk]
  | cons p rest ih =>
    obtain ⟨k1, v1⟩ := p
    by_cases hk : k0 = k
    · subst hk
      simp [dictGet, ih]
    · simp [dictGet, ih, hk]

theorem dictGet_update {α : Type} (l : List (String × α)) (k0 k : String) (f : α → α) :
    dictGet (dictUpdate l k0 f) k =
      if k0 = k then (dictGet l k).map f else dictGet l k := by
  induction l with
  | nil => by_cases hk : k0 = k <;> simp [dictGet, dictUpdate, hk]
  | cons p rest ih =>
    obtain ⟨k1, v1⟩ := p
    have hupd : dictUpdate ((k1, v1) :: rest) k0 f
        = (if k1 = k0 then (k1, f v1) else (k1, v1)) :: dictUpdate rest k0 f := rfl
    rw [hupd]
    by_cases h1 : k1 = k0
    · rw [if_pos h1]
      simp only [dictGet, ih]
      by_cases hk : k0 = k <;>
        cases hrest : dictGet rest k <;>
          simp [hrest, hk, h1]
    · rw [if_neg h1]
      simp only [dictGet, ih]
      by_cases hk : k0 = k
      · have hk1 : ¬ k1 = k := fun hc => h1 (hc.trans hk.symm)
        cases hrest : dictGet rest k <;> simp [hrest, hk, hk1]
      · cases hrest : dictGet rest k <;> simp [hrest, hk]

theorem mem_of_dictGet {α : Type} {l : List (String × α)} {k : String} {v : α}
    (h : dictGet l k = some v) : (k, v) ∈ l := by
  induction l with
  | nil => simp [dictGet] at h
  | cons p rest ih =>
    obtain ⟨k1, v1⟩ := p
    simp only [dictGet] at h
    cases hrest : dictGet rest k with
    | some r =>
      rw [hrest] at h
      simp only [Option.some.injEq] at h
      exact List.mem_cons_of_mem _ (ih (h ▸ hrest))
    | none =>
      rw [hrest] at h
      by_cases h1 : k1 = k
      · rw [if_pos h1] at h
        simp only [Option.some.injEq] at h
        subst h1
        subst h
        exact List.mem_cons_self _ _
      · rw [if_neg h1] at h
        simp at h

theorem dictGet_isSome_iff {α : Type} (l : List (String × α)) (k : String) :
    (dictGet l k).isSome ↔ k ∈ l.map Prod.fst := by
  induction l with
  | nil => simp [dictGet]
  | cons p rest ih =>
    obtain ⟨k1, v1⟩ := p
    simp only [dictGet, List.map_cons, List.mem_cons]
    cases hrest : dictGet rest k with
    | some r =>
      simp only [Option.isSome_some, true_iff]
      right
      rw [← ih, hrest]
      rfl
    | none =>
      rw [hrest] at ih
      by_cases h1 : k1 = k
      · subst h1
        simp
      · have : ¬ k = k1 := fun hc => h1 hc.symm
        simp only [if_neg h1, Option.isSome_none, false_iff, ih]
        simp_all

theorem build_song_dict_ok {row : Row} {h : List (String × Nat)} {rec : SongRec}
    (hok : build_song_dict row h = Except.ok rec) :
    rec.id = _s (get_cell row h "id") ∧ rec.versions = [] ∧ rec.glossary = [] := by
  by_cases h1 : _s (get_cell row h "id") = ""
  · simp [build_song_dict, h1, _fail] at hok
  · by_cases h2 : _s (get_cell row h "title") = ""
    · simp [build_song_dict, h1, h2, _fail] at hok
    · by_cases h3 : _s (get_cell row h "hub") = ""
      · simp [build_song_dict, h1, h2, h3, _fail] at hok
      · by_cases h4 : _s (get_cell row h "lyrics") = ""
        · simp [build_song_dict, h1, h2, h3, h4, _fail] at hok
        · simp only [build_song_dict, h1, h2, h3, h4, if_neg, if_false, ite_false,
            Except.ok.injEq] at hok
          subst hok
          exact ⟨rfl, rfl, rfl⟩

theorem build_version_dict_ok {row : Row} {h : List (String × Nat)}
    {sid : String} {ver : List (String × String)}
    (hok : build_version_dict row h = Except.ok (sid, ver)) :
    sid = _s (get_cell row h "songId") ∧ sid ≠ "" ∧
    ver = ("id", _s (get_cell row h "id")) ::
      verOptKeys.filterMap (fun k => (_opt (get_cell row h k)).map (fun v => (k, v))) := by
  by_cases h1 : _s (get_cell row h "songId") = ""
  · simp [build_version_dict, h1, _fail] at hok
  · by_cases h2 : _s (get_cell row h "id") = ""
    · simp [build_version_dict, h1, h2, _fail] at hok
    · simp only [build_version_dict, h1, h2, if_false, ite_false, Except.ok.injEq,
        Prod.mk.injEq] at hok
      obtain ⟨hsid, hver⟩ := hok
      exact ⟨hsid.symm, by rw [← hsid]; exact h1, hver.symm⟩

theorem build_glossary_item_ok {row : Row} {h : List (String × Nat)}
    {sid : String} {item : String × String}
    (hok : build_glossary_item row h = Except.ok (sid, item)) :
    sid = _s (get_cell row h "songId") ∧ sid ≠ "" ∧
    item = (_s (get_cell row h "term"), _s (get_cell row h "definition")) := by
  by_cases h1 : _s (get_cell row h "songId") = ""
  · simp [build_glossary_item, h1, _fail] at hok
  · by_cases h2 : _s (get_cell row h "term") = ""
    · simp [build_glossary_item, h1, h2, _fail] at hok
    · by_cases h3 : _s (get_cell row h "definition") = ""
      · simp [build_glossary_item, h1, h2, h3, _fail] at hok
      · simp only [build_glossary_item, h1, h2, h3, if_false, ite_false, Except.ok.injEq,
          Prod.mk.injEq] at hok
        obtain ⟨hsid, hitem⟩ := hok
        exact ⟨hsid.symm, by rw [← hsid]; exact h1, hitem.symm⟩

theorem processSongs_entries {h : List (String × Nat)} {rows : List Row} :
    ∀ {idx : Nat} {acc out : List (String × SongRec)},
      processSongs h idx rows acc = Except.ok out →
      ∀ p ∈ out, p ∈ acc ∨ (p.1 = p.2.id ∧ p.2.versions = [] ∧ p.2.glossary = []) := by
  induction rows with
  | nil =>
    intro idx acc out hok p hp
    simp only [processSongs, Except.ok.injEq] at hok
    subst hok
    exact Or.inl hp
  | cons row rest ih =>
    intro idx acc out hok p hp
    rw [processSongs] at hok
    by_cases hblank : rowBlank row = true
    · rw [if_pos hblank] at hok
      exact ih hok p hp
    · rw [if_neg hblank] at hok
      split at hok
      · simp at hok
      · rename_i song hbs
        split at hok
        · simp [_fail] at hok
        · rcases ih hok p hp with hin | hnew
          · rcases List.mem_append.mp hin with h1 | h2
            · exact Or.inl h1
            · simp only [List.mem_singleton] at h2
              subst h2
              obtain ⟨hid, hv, hg⟩ := build_song_dict_ok hbs
              exact Or.inr ⟨rfl, hv, hg⟩
          · exact Or.inr hnew

theorem processVersions_lookup {h : List (String × Nat)} {rows : List Row} :
    ∀ {idx : Nat} {sbi : List (String × SongRec)} {seen : List (String × List String)}
      {out : List (String × SongRec)},
      processVersions h idx rows sbi seen = Except.ok out →
      ∀ s, dictGet out s =
        (dictGet sbi s).map
          (fun rec => { rec with versions := rec.versions ++ versionsFor h s rows }) := by
  induction rows with
  | nil =>
    intro idx sbi seen out hok s
    simp only [processVersions, Except.ok.injEq] at hok
    subst hok
    cases hget : dictGet sbi s <;> simp [versionsFor]
  | cons row rest ih =>
    intro idx sbi seen out hok s
    rw [processVersions] at hok
    by_cases hblank : rowBlank row = true
    · rw [if_pos hblank] at hok
      rw [ih hok s]
      simp [versionsFor, rowVersionFor, hblank]
    · rw [if_neg hblank] at hok
      split at hok
      · simp at hok
      · rename_i sid ver hbv
        split at hok
        · simp [_fail] at hok
        · rename_i rec0 hget
          by_cases hdup : ((dictGet ver "id").getD "") ∈ ((dictGet seen sid).getD [])
          · simp only [hdup, if_true, ite_true, _fail] at hok
            exact absurd hok (by simp)
          · simp only [hdup, if_false, ite_false] at hok
            rw [ih hok s, dictGet_update]
            by_cases hs : sid = s
            · subst hs
              rw [hget]
              have hconsume : versionsFor h sid (row :: rest) = ver :: versionsFor h sid rest := by
                simp [versionsFor, rowVersionFor, hblank, hbv]
              rw [hconsume]
              simp
            · have hskip : versionsFor h s (row :: rest) = versionsFor h s rest := by
                simp [versionsFor, rowVersionFor, hblank, hbv, hs]
              rw [hskip]
              simp [hs]

theorem processVersions_refs {h : List (String × Nat)} {rows : List Row} :
    ∀ {idx : Nat} {sbi : List (String × SongRec)} {seen : List (String × List String)}
      {out : List (String × SongRec)},
      processVersions h idx rows sbi seen = Except.ok out →
      ∀ row ∈ rows, rowBlank row = false →
      ∃ sid ver, build_version_dict row h = Except.ok (sid, ver) ∧ (dictGet sbi sid).isSome := by
  induction rows with
  | nil =>
    intro idx sbi seen out hok row hrow
    cases hrow
  | cons row0 rest ih =>
    intro idx sbi seen out hok row hrow hblank
    rw [processVersions] at hok
    rcases List.mem_cons.mp hrow with heq | hmem
    · subst heq
      rw [if_neg (by simp [hblank])] at hok
      split at hok
      · simp at hok
      · rename_i sid ver hbv
        split at hok
        · simp [_fail] at hok
        · rename_i rec0 hget
          exact ⟨sid, ver, hbv, by rw [hget]; rfl⟩
    · by_cases hblank0 : rowBlank row0 = true
      · rw [if_pos hblank0] at hok
        exact ih hok row hmem hblank
      · rw [if_neg hblank0] at hok
        split at hok
        · simp at hok
        · rename_i sid0 ver0 hbv0
          split at hok
          · simp [_fail] at hok
          · rename_i rec0 hget
            by_cases hdup : ((dictGet ver0 "id").getD "") ∈ ((dictGet seen sid0).getD [])
            · simp only [hdup, if_true, ite_true, _fail] at hok
              exact absurd hok (by simp)
            · simp only [hdup, if_false, ite_false] at hok
              obtain ⟨sid, ver, hb, hsome⟩ := ih hok row hmem hblank
              refine ⟨sid, ver, hb, ?_⟩
              rw [dictGet_update] at hsome
              by_cases h0 : sid0 = sid
              · subst h0
                rw [hget]
                rfl
              · rwa [if_neg h0] at hsome

theorem processGlossary_lookup {h : List (String × Nat)} {rows : List Row} :
    ∀ {idx : Nat} {sbi : List (String × SongRec)} {seen : List (String × List String)}
      {out : List (String × SongRec)},
      processGlossary h idx rows sbi seen = Except.ok out →
      ∀ s, dictGet out s =
        (dictGet sbi s).map
          (fun rec => { rec with glossary := rec.glossary ++ glossaryFor h s rows }) := by
  induction rows with
  | nil =>
    intro idx sbi seen out hok s
    simp only [processGlossary, Except.ok.injEq] at hok
    subst hok
    cases hget : dictGet sbi s <;> simp [glossaryFor]
  | cons row rest ih =>
    intro idx sbi seen out hok s
    rw [processGlossary] at hok
    by_cases hblank : rowBlank row = true
    · rw [if_pos hblank] at hok
      rw [ih hok s]
      simp [glossaryFor, rowGlossFor, hblank]
    · rw [if_neg hblank] at hok
      split at hok
      · simp at hok
      · rename_i sid item hbv
        split at hok
        · simp [_fail] at hok
        · rename_i rec0 hget
          by_cases hdup : pyLower (pyStrip item.1) ∈ ((dictGet seen sid).getD [])
          · simp only [hdup, if_true, ite_true, _fail] at hok
            exact absurd hok (by simp)
          · simp only [hdup, if_false, ite_false] at hok
            rw [ih hok s, dictGet_update]
            by_cases hs : sid = s
            · subst hs
              rw [hget]
              have hconsume : glossaryFor h sid (row :: rest) = item :: glossaryFor h sid rest := by
                simp [glossaryFor, rowGlossFor, hblank, hbv]
              rw [hconsume]
              simp
            · have hskip : glossaryFor h s (row :: rest) = glossaryFor h s rest := by
                simp [glossaryFor, rowGlossFor, hblank, hbv, hs]
              rw [hskip]
              simp [hs]

theorem processGlossary_refs {h : List (String × Nat)} {rows : List Row} :
    ∀ {idx : Nat} {sbi : List (String × SongRec)} {seen : List (String × List String)}
      {out : List (String × SongRec)},
      processGlossary h idx rows sbi seen = Except.ok out →
      ∀ row ∈ rows, rowBlank row = false →
      ∃ sid item, build_glossary_item row h = Except.ok (sid, item) ∧
        (dictGet sbi sid).isSome := by
  induction rows with
  | nil =>
    intro idx sbi seen out hok row hrow
    cases hrow
  | cons row0 rest ih =>
    intro idx sbi seen out hok row hrow hblank
    rw [processGlossary] at hok
    rcases List.mem_cons.mp hrow with heq | hmem
    · subst heq
      rw [if_neg (by simp [hblank])] at hok
      split at hok
      · simp at hok
      · rename_i sid item hbv
        split at hok
        · simp [_fail] at hok
        · rename_i rec0 hget
          exact ⟨sid, item, hbv, by rw [hget]; rfl⟩
    · by_cases hblank0 : rowBlank row0 = true
      · rw [if_pos hblank0] at hok
        exact ih hok row hmem hblank
      · rw [if_neg hblank0] at hok
        split at hok
        · simp at hok
        · rename_i sid0 item0 hbv0
          split at hok
          · simp [_fail] at hok
          · rename_i rec0 hget
            by_cases hdup : pyLower (pyStrip item0.1) ∈ ((dictGet seen sid0).getD [])
            · simp only [hdup, if_true, ite_true, _fail] at hok
              exact absurd hok (by simp)
            · simp only [hdup, if_false, ite_false] at hok
              obtain ⟨sid, item, hb, hsome⟩ := ih hok row hmem hblank
              refine ⟨sid, item, hb, ?_⟩
              rw [dictGet_update] at hsome
              by_cases h0 : sid0 = sid
              · subst h0
                rw [hget]
                rfl
              · rwa [if_neg h0] at hsome

theorem filterMap_dictGet_map_id {l : List (String × SongRec)} :
    ∀ {ks : List String}, (∀ k ∈ ks, ∃ rec, dictGet l k = some rec ∧ rec.id = k) →
      ((ks.filterMap (fun k => dictGet l k)).map SongRec.id) = ks := by
  intro ks
  induction ks with
  | nil => intro _; simp
  | cons k rest ih =>
    intro hall
    obtain ⟨rec, hget, hid⟩ := hall k (by simp)
    have hrest := ih (fun k' hk' => hall k' (by simp [hk']))
    simp [List.filterMap_cons, hget, hid, hrest]

theorem songsStage_ok {wb : Workbook} {sbi : List (String × SongRec)}
    (h : songsStage wb = Except.ok sbi) :
    processSongs (sheetHeaders (sheetOf wb "songs")) 2 ((sheetOf wb "songs").drop 1) []
      = Except.ok sbi := by
  simp only [songsStage] at h
  split at h
  · simp [_fail] at h
  · split at h
    · simp [_fail] at h
    · split at h
      · simp [_fail] at h
      · split at h
        · simp [_fail] at h
        · split at h
          · simp at h
          · rename_i sbi0 hps
            split at h
            · simp [_fail] at h
            · simp only [Except.ok.injEq] at h
              subst h
              exact hps

theorem versionsStage_ok {wb : Workbook} {sbi sbi2 : List (String × SongRec)}
    (h : versionsStage wb sbi = Except.ok sbi2) :
    processVersions (sheetHeaders (sheetOf wb "versions")) 2 ((sheetOf wb "versions").drop 1)
      sbi [] = Except.ok sbi2 := by
  simp only [versionsStage] at h
  split at h
  · simp [_fail] at h
  · exact h

theorem glossaryStage_ok {wb : Workbook} {sbi sbi2 : List (String × SongRec)}
    (h : glossaryStage wb sbi = Except.ok sbi2) :
    processGlossary (sheetHeaders (sheetOf wb "glossary")) 2 ((sheetOf wb "glossary").drop 1)
      sbi [] = Except.ok sbi2 := by
  simp only [glossaryStage] at h
  split at h
  · simp [_fail] at h
  · split at h
    · simp [_fail] at h
    · split at h
      · simp [_fail] at h
      · exact h

theorem buildContent_ok {wb : Workbook} {c : Content}
    (h : buildContent wb = Except.ok c) :
    ∃ cv bmu sbi sbi2 sbi3,
      metaStage wb = Except.ok (cv, bmu) ∧
      songsStage wb = Except.ok sbi ∧
      versionsStage wb sbi = Except.ok sbi2 ∧
      glossaryStage wb sbi2 = Except.ok sbi3 ∧
      c.songs = (List.insertionSort (fun a b => a ≤ b) (sbi3.map Prod.fst)).filterMap
        (fun k => dictGet sbi3 k) ∧
      c.songsJson = jsonDumps (Json.arr (c.songs.map songJson)) ∧
      c.catalogVersion = cv ∧ c.baseMediaUrl = bmu := by
  unfold buildContent at h
  split at h
  · simp at h
  · split at h
    · simp at h
    · rename_i cvp cv bmu hmeta
      split at h
      · simp at h
      · rename_i sbi hsongs
        split at h
        · simp at h
        · rename_i sbi2 hvers
          split at h
          · simp at h
          · rename_i sbi3 hglos
            simp only [Except.ok.injEq] at h
            subst h
            exact ⟨cv, bmu, sbi, sbi2, sbi3, hmeta, hsongs, hvers, hglos, rfl, rfl, rfl, rfl⟩

theorem mainRun_ok {wb : Workbook} {strictEnv : String}
    {oldLatest oldSongs : Option (Except String Json)} {now : String} {out : Output}
    (h : mainRun (some wb) strictEnv oldLatest oldSongs now = Except.ok out) :
    ∃ c, buildContent wb = Except.ok c ∧
      out = { songs := c.songs, songsJson := c.songsJson,
              manifest :=
                { catalogVersion := c.catalogVersion, publishedAt := now,
                  songsUrl := SONGS_URL, baseMediaUrl := c.baseMediaUrl } } := by
  simp only [mainRun] at h
  split at h
  · simp at h
  · rename_i c hbc
    split at h
    · simp at h
    · simp only [Except.ok.injEq] at h
      exact ⟨c, hbc, h.symm⟩

theorem _opt_eq_some {c : Cell} {v : String} :
    _opt c = some v ↔ _s c ≠ "" ∧ v = _s c := by
  by_cases ht : _s c = "" <;> simp [_opt, ht, eq_comm]

theorem mem_filterMap_opt (keys : List String) (g : String → Option String)
    (k v : String) :
    (k, v) ∈ keys.filterMap (fun key => (g key).map (fun x => (key, x))) ↔
      k ∈ keys ∧ g k = some v := by
  simp only [List.mem_filterMap, Option.map_eq_some']
  constructor
  · rintro ⟨a, ha, x, hgx, hax⟩
    obtain ⟨rfl, rfl⟩ := Prod.mk.injEq .. ▸ hax
    exact ⟨ha, hgx⟩
  · rintro ⟨hk, hg⟩
    exact ⟨k, hk, v, hg, rfl⟩

/-- C2: whenever any fatal condition makes the run terminate with an error
(non-zero exit), no output file at all is produced for either output
directory; file writes happen only on the success path, which in the script
lies after every fatal check.  The second conjunct exhibits the first fatal
category (missing input file). -/
theorem claim_C2_no_partial_output :
    ∀ (input : Option Workbook) (strictEnv : String)
      (oldLatest oldSongs : Option (Except String Json)) (now : String),
      (∀ e, mainRun input strictEnv oldLatest oldSongs now = Except.error e →
        filesWritten (mainRun input strictEnv oldLatest oldSongs now) = []) ∧
      (input = none →
        ∃ e, mainRun input strictEnv oldLatest oldSongs now = Except.error e) := by
  intro input strictEnv ol os now
  constructor
  · intro e he
    rw [he]
    rfl
  · rintro rfl
    exact ⟨"ERROR: Input file not found: input/istoki.xlsx", rfl⟩

theorem claim_C2_witness :
    filesWritten (mainRun none "" none none "2026-01-01T00:00:00Z") = [] :=
  (claim_C2_no_partial_output none "" none none "2026-01-01T00:00:00Z").1
    "ERROR: Input file not found: input/istoki.xlsx" rfl

/-- C3: the canonical `songs.json` byte string (and the ordered song list) a
successful run produces is a function of the workbook alone — it does not
depend on the timestamp, the environment toggle, or the previously published
files; the manifests of two such runs agree except for `publishedAt`. -/
theorem claim_C3_songs_json_deterministic :
    ∀ (wb : Workbook) (env1 env2 : String)
      (ol1 os1 ol2 os2 : Option (Except String Json)) (t1 t2 : String) (o1 o2 : Output),
      mainRun (some wb) env1 ol1 os1 t1 = Except.ok o1 →
      mainRun (some wb) env2 ol2 os2 t2 = Except.ok o2 →
      o1.songsJson = o2.songsJson ∧ o1.songs = o2.songs ∧
      o1.manifest = { o2.manifest with publishedAt := t1 } := by
  intro wb env1 env2 ol1 os1 ol2 os2 t1 t2 o1 o2 h1 h2
  obtain ⟨c1, hc1, ho1⟩ := mainRun_ok h1
  obtain ⟨c2, hc2, ho2⟩ := mainRun_ok h2
  rw [hc1] at hc2
  simp only [Except.ok.injEq] at hc2
  subst hc2
  subst ho1
  subst ho2
  exact ⟨rfl, rfl, rfl⟩

theorem claim_C3_witness :
    outEx.songsJson =
      (Output.mk outEx.songs outEx.songsJson
        { outEx.manifest with publishedAt := "2026-02-02T00:00:00Z" }).songsJson :=
  (claim_C3_songs_json_deterministic wbEx "" "" none none none none
    "2026-01-01T00:00:00Z" "2026-02-02T00:00:00Z" outEx
    (Output.mk outEx.songs outEx.songsJson
      { outEx.manifest with publishedAt := "2026-02-02T00:00:00Z" })
    rfl rfl).1

/-- C4: in a version record, each optional override key (`title`, `lyrics`,
`sourceNote`, `audioUrl`, `minusUrl`, `videoUrl`) is present exactly when the
corresponding cell is non-blank after trimming, and a present value is the
trimmed cell content, never the empty string (the serialized record carries
the same keys, as string values — so a blank cell yields neither `null` nor
`""`, the key is simply absent). -/
theorem claim_C4_version_optional_fields :
    ∀ (row : Row) (h : List (String × Nat)) (sid : String) (ver : List (String × String)),
      build_version_dict row h = Except.ok (sid, ver) →
      ∀ k ∈ verOptKeys,
        ((∃ v, (k, v) ∈ ver) ↔ _s (get_cell row h k) ≠ "") ∧
        (∀ v, (k, v) ∈ ver → v = _s (get_cell row h k) ∧ v ≠ "") := by
  intro row h sid ver hok k hk
  obtain ⟨hsid, hne, hver⟩ := build_version_dict_ok hok
  have hkid : k ≠ "id" := by
    simp only [verOptKeys, List.mem_cons, List.not_mem_nil, or_false] at hk
    rcases hk with rfl | rfl | rfl | rfl | rfl | rfl <;> decide
  subst hver
  constructor
  · constructor
    · rintro ⟨v, hv⟩
      rcases List.mem_cons.mp hv with hhead | htail
      · exact absurd (congrArg Prod.fst hhead) hkid
      · rw [mem_filterMap_opt] at htail
        exact (_opt_eq_some.mp htail.2).1
    · intro hne'
      refine ⟨_s (get_cell row h k), List.mem_cons_of_mem _ ?_⟩
      rw [mem_filterMap_opt]
      exact ⟨hk, _opt_eq_some.mpr ⟨hne', rfl⟩⟩
  · intro v hv
    rcases List.mem_cons.mp hv with hhead | htail
    · exact absurd (congrArg Prod.fst hhead) hkid
    · rw [mem_filterMap_opt] at htail
      obtain ⟨hne', hveq⟩ := _opt_eq_some.mp htail.2
      exact ⟨hveq, hveq ▸ hne'⟩

theorem claim_C4_witness :
    ((∃ v, ("audioUrl", v) ∈ verPairEx.2) ↔ _s (get_cell verRowEx hvEx "audioUrl") ≠ "") ∧
    (∀ v, ("audioUrl", v) ∈ verPairEx.2 →
      v = _s (get_cell verRowEx hvEx "audioUrl") ∧ v ≠ "") :=
  claim_C4_version_optional_fields verRowEx hvEx verPairEx.1 verPairEx.2 rfl
    "audioUrl" (by decide)

/-- C9: every serialized song record carries the full fixed key list, in
order; each of the fifteen scalar keys is present with a JSON string value;
blank optional song cells are emitted as `""` (or the fixed defaults for
`languageTag` and `rightsStatus`), never omitted. -/
theorem claim_C9_song_record_keys :
    ∀ (row : Row) (h : List (String × Nat)) (rec : SongRec),
      build_song_dict row h = Except.ok rec →
      (songKVs rec).map Prod.fst = songAllKeys ∧
      (∀ k ∈ songScalarKeys, ∃ v, (k, Json.str v) ∈ songKVs rec) ∧
      rec.altTitles = _s (get_cell row h "altTitles") ∧
      rec.regionDetail = _s (get_cell row h "regionDetail") ∧
      rec.genre = _s (get_cell row h "genre") ∧
      rec.cossackHost = _s (get_cell row h "cossackHost") ∧
      rec.contextShort = _s (get_cell row h "contextShort") ∧
      rec.sourceNote = _s (get_cell row h "sourceNote") ∧
      rec.audioUrl = _s (get_cell row h "audioUrl") ∧
      rec.minusUrl = _s (get_cell row h "minusUrl") ∧
      rec.videoUrl = _s (get_cell row h "videoUrl") ∧
      rec.languageTag =
        (if _s (get_cell row h "languageTag") = "" then "русский"
         else _s (get_cell row h "languageTag")) ∧
      rec.rightsStatus =
        (if _s (get_cell row h "rightsStatus") = "" then "NONE"
         else _s (get_cell row h "rightsStatus")) := by
  intro row h rec hok
  have hfields : ∀ k ∈ songScalarKeys, ∃ v, (k, Json.str v) ∈ songKVs rec := by
    intro k hk
    fin_cases hk
    · exact ⟨rec.id, by simp [songKVs]⟩
    · exact ⟨rec.title, by simp [songKVs]⟩
    · exact ⟨rec.altTitles, by simp [songKVs]⟩
    · exact ⟨rec.hub, by simp [songKVs]⟩
    · exact ⟨rec.regionDetail, by simp [songKVs]⟩
    · exact ⟨rec.genre, by simp [songKVs]⟩
    · exact ⟨rec.cossackHost, by simp [songKVs]⟩
    · exact ⟨rec.languageTag, by simp [songKVs]⟩
    · exact ⟨rec.contextShort, by simp [songKVs]⟩
    · exact ⟨rec.lyrics, by simp [songKVs]⟩
    · exact ⟨rec.sourceNote, by simp [songKVs]⟩
    · exact ⟨rec.audioUrl, by simp [songKVs]⟩
    · exact ⟨rec.minusUrl, by simp [songKVs]⟩
    · exact ⟨rec.videoUrl, by simp [songKVs]⟩
    · exact ⟨rec.rightsStatus, by simp [songKVs]⟩
  refine ⟨rfl, hfields, ?_⟩
  by_cases h1 : _s (get_cell row h "id") = ""
  · simp [build_song_dict, h1, _fail] at hok
  · by_cases h2 : _s (get_cell row h "title") = ""
    · simp [build_song_dict, h1, h2, _fail] at hok
    · by_cases h3 : _s (get_cell row h "hub") = ""
      · simp [build_song_dict, h1, h2, h3, _fail] at hok
      · by_cases h4 : _s (get_cell row h "lyrics") = ""
        · simp [build_song_dict, h1, h2, h3, h4, _fail] at hok
        · simp only [build_song_dict, h1, h2, h3, h4, if_false, ite_false,
            Except.ok.injEq] at hok
          subst hok
          exact ⟨rfl, rfl, rfl, rfl, rfl, rfl, rfl, rfl, rfl, rfl, rfl⟩

theorem claim_C9_witness :
    (songKVs recEx).map Prod.fst = songAllKeys ∧
    recEx.altTitles = _s (get_cell songRowEx hsEx "altTitles") ∧
    recEx.languageTag =
      (if _s (get_cell songRowEx hsEx "languageTag") = "" then "русский"
       else _s (get_cell songRowEx hsEx "languageTag")) := by
  have h := claim_C9_song_record_keys songRowEx hsEx recEx rfl
  exact ⟨h.1, h.2.2.1, h.2.2.2.2.2.2.2.2.2.2.2.1⟩

theorem strContains_head (x b : String) : strContains x (x ++ b) :=
  ⟨"", b, by simp⟩

theorem strContains_cons (a : String) {x hay : String} (h : strContains x hay) :
    strContains x (a ++ hay) := by
  obtain ⟨p, q, rfl⟩ := h
  exact ⟨a ++ p, q, by rw [String.append_assoc]⟩

theorem gateMsg_contains_old (cv ov : Int) (a b : String) (sc bc : Bool) :
    strContains (toString ov) ("ERROR: " ++ gateMsg cv ov a b sc bc) := by
  unfold gateMsg
  exact strContains_cons "ERROR: "
    (strContains_cons
      "STRICT_VERSIONING: content changed but catalogVersion was not bumped. old="
      (strContains_head (toString ov) _))

theorem gateMsg_contains_new (cv ov : Int) (a b : String) (sc bc : Bool) :
    strContains (toString cv) ("ERROR: " ++ gateMsg cv ov a b sc bc) := by
  unfold gateMsg
  exact strContains_cons "ERROR: "
    (strContains_cons
      "STRICT_VERSIONING: content changed but catalogVersion was not bumped. old="
      (strContains_cons (toString ov)
        (strContains_cons ", new="
          (strContains_head (toString cv) _))))

theorem parseOldManifest_obj (ov : Int) (ob : String) :
    parseOldManifest (Except.ok (Json.obj
      [("catalogVersion", Json.num ov), ("baseMediaUrl", Json.str ob)]))
      = Except.ok (ov, pyStrip ob) := by
  simp [parseOldManifest, dictGet, pyIntOfJson, pyStr]

theorem strictGate_obj (cv ov : Int) (ob bmu nb : String)
    (os : Option (Except String Json)) :
    strictGate cv bmu nb
      (Except.ok (Json.obj [("catalogVersion", Json.num ov), ("baseMediaUrl", Json.str ob)]))
      os = gateAfter cv bmu nb ov (pyStrip ob) os := by
  unfold strictGate
  rw [parseOldManifest_obj]

theorem gateAfter_some_ok (cv : Int) (bmu nb : String) (ov : Int) (obt : String)
    (oldJ : Json) :
    gateAfter cv bmu nb ov obt (some (Except.ok oldJ)) =
      if ((jsonDumps oldJ != nb) || (obt != pyStrip bmu)) && decide (cv ≤ ov) then
        _fail (gateMsg cv ov obt (pyStrip bmu) (jsonDumps oldJ != nb) (obt != pyStrip bmu))
      else Except.ok () := rfl

theorem gateAfter_none (cv : Int) (bmu nb : String) (ov : Int) (obt : String) :
    gateAfter cv bmu nb ov obt none =
      if ((false : Bool) || (obt != pyStrip bmu)) && decide (cv ≤ ov) then
        _fail (gateMsg cv ov obt (pyStrip bmu) false (obt != pyStrip bmu))
      else Except.ok () := rfl

/-- C1: in strict mode with a previously published manifest (canonical form:
a JSON object holding the old integer version and base url), if the canonical
songs bytes changed relative to the re-canonicalized previous catalog or the
trimmed base-media-url changed, and the new catalogVersion is not strictly
greater than the old one, the gate fails with a message containing both the
old and the new version number; if neither changed, the gate passes for every
new catalogVersion value, including values equal to or below the old one. -/
theorem claim_C1_strict_versioning_gate :
    ∀ (ov cv : Int) (ob bmu nb : String) (oldJ : Json),
      (((jsonDumps oldJ ≠ nb ∨ pyStrip ob ≠ pyStrip bmu) ∧ cv ≤ ov) →
        ∃ msg,
          strictGate cv bmu nb
            (Except.ok (Json.obj
              [("catalogVersion", Json.num ov), ("baseMediaUrl", Json.str ob)]))
            (some (Except.ok oldJ)) = Except.error msg ∧
          strContains (toString ov) msg ∧ strContains (toString cv) msg) ∧
      ((jsonDumps oldJ = nb ∧ pyStrip ob = pyStrip bmu) →
        strictGate cv bmu nb
          (Except.ok (Json.obj
            [("catalogVersion", Json.num ov), ("baseMediaUrl", Json.str ob)]))
          (some (Except.ok oldJ)) = Except.ok ()) := by
  intro ov cv ob bmu nb oldJ
  rw [strictGate_obj, gateAfter_some_ok]
  constructor
  · rintro ⟨hchanged, hle⟩
    have hcond : (((jsonDumps oldJ != nb) || (pyStrip ob != pyStrip bmu))
        && decide (cv ≤ ov)) = true := by
      simp only [Bool.and_eq_true, Bool.or_eq_true, bne_iff_ne, ne_eq,
        decide_eq_true_eq]
      constructor
      · rcases hchanged with hsd | hbd
        · exact Or.inl hsd
        · exact Or.inr hbd
      · exact hle
    rw [if_pos hcond]
    exact ⟨_, rfl, gateMsg_contains_old cv ov _ _ _ _, gateMsg_contains_new cv ov _ _ _ _⟩
  · rintro ⟨hs, hb⟩
    rw [if_neg]
    simp [hs, hb]

theorem claim_C1_witness :
    ((strictGate 1 "b" "NB"
        (Except.ok (Json.obj [("catalogVersion", Json.num 2), ("baseMediaUrl", Json.str "b")]))
        (some (Except.ok (Json.str "OLD")))).isOk = false) ∧
    (strictGate 1 "b" (jsonDumps (Json.str "OLD"))
        (Except.ok (Json.obj [("catalogVersion", Json.num 2), ("baseMediaUrl", Json.str "b")]))
        (some (Except.ok (Json.str "OLD"))) = Except.ok ()) := by
  constructor
  · obtain ⟨msg, hmsg, _, _⟩ :=
      (claim_C1_strict_versioning_gate 2 1 "b" "b" "NB" (Json.str "OLD")).1
        ⟨Or.inl (by decide), by decide⟩
    rw [hmsg]
    rfl
  · exact (claim_C1_strict_versioning_gate 2 1 "b" "b" (jsonDumps (Json.str "OLD"))
      (Json.str "OLD")).2 ⟨rfl, rfl⟩

/-- C8: in strict mode, when the old manifest exists but the previously
published `songs.json` does not (`oldSongs = none`), `songs_changed` is
`False`: the gate passes whenever the trimmed base-media-url is unchanged —
for every new canonical byte string and every version pair — and can block
only on a base-media-url change. -/
theorem claim_C8_missing_old_catalog :
    ∀ (ov cv : Int) (ob bmu nb : String),
      (pyStrip ob = pyStrip bmu →
        strictGate cv bmu nb
          (Except.ok (Json.obj
            [("catalogVersion", Json.num ov), ("baseMediaUrl", Json.str ob)]))
          none = Except.ok ()) ∧
      (pyStrip ob ≠ pyStrip bmu → cv ≤ ov →
        ∃ msg,
          strictGate cv bmu nb
            (Except.ok (Json.obj
              [("catalogVersion", Json.num ov), ("baseMediaUrl", Json.str ob)]))
            none = Except.error msg) := by
  intro ov cv ob bmu nb
  rw [strictGate_obj, gateAfter_none]
  constructor
  · intro hb
    rw [if_neg]
    simp [hb]
  · intro hb hle
    have hcond : (((false : Bool) || (pyStrip ob != pyStrip bmu)) && decide (cv ≤ ov)) = true := by
      simp only [Bool.false_or, Bool.and_eq_true, bne_iff_ne, ne_eq, decide_eq_true_eq]
      exact ⟨hb, hle⟩
    rw [if_pos hcond]
    exact ⟨_, rfl⟩

theorem claim_C8_witness :
    strictGate 0 "b" "ANY NEW BYTES"
      (Except.ok (Json.obj [("catalogVersion", Json.num 5), ("baseMediaUrl", Json.str " b ")]))
      none = Except.ok () :=
  (claim_C8_missing_old_catalog 5 0 " b " "b" "ANY NEW BYTES").1 (by decide)

/-- C10, counterexample: `docs/latest.json` containing `[]` decodes as JSON
and has no `catalogVersion` key, yet the gate does not proceed with version 0
— it aborts through the `cannot parse` branch, because the attribute lookup
`old_manifest.get` raises on a non-object.  This refutes both the claim's
`treated as version 0` reading of `parses as JSON` and its `only when` list of
fatal causes. -/
theorem claim_C10_counterexample :
    strictGate 1 "" "x" (Except.ok (Json.arr [])) none =
      Except.error
        "ERROR: STRICT_VERSIONING: cannot parse existing docs/latest.json: \x27list\x27 object has no attribute \x27get\x27"
      ∧
    strictGate 1 "" "x" (Except.ok (Json.arr [])) none ≠ Except.ok () := by
  constructor
  · rfl
  · intro hc
    simp [strictGate, parseOldManifest, _fail] at hc

/-- C10, amended: in strict mode, an old manifest that decodes as a JSON
OBJECT lacking the `catalogVersion` key is treated as version 0 (and a
missing `baseMediaUrl` as the empty string) rather than aborting; the fatal
`cannot parse` branch is reached when JSON decoding fails, when the decoded
top level is not an object (the attribute lookup raises), or when a present
`catalogVersion` value is not convertible to an integer. -/
theorem claim_C10_amended :
    ∀ (kvs : List (String × Json)) (cv : Int) (bmu nb : String)
      (os : Option (Except String Json)),
      (dictGet kvs "catalogVersion" = none → dictGet kvs "baseMediaUrl" = none →
        parseOldManifest (Except.ok (Json.obj kvs)) = Except.ok (0, "")) ∧
      (∀ e, strictGate cv bmu nb (Except.error e) os =
        Except.error
          ("ERROR: " ++ ("STRICT_VERSIONING: cannot parse existing docs/latest.json: " ++ e))) ∧
      (∀ j, (∀ kvs2, j ≠ Json.obj kvs2) →
        ∃ msg, strictGate cv bmu nb (Except.ok j) os = Except.error msg) ∧
      (∀ vj, dictGet kvs "catalogVersion" = some vj → pyIntOfJson vj = none →
        ∃ msg, strictGate cv bmu nb (Except.ok (Json.obj kvs)) os = Except.error msg) := by
  intro kvs cv bmu nb os
  refine ⟨?_, ?_, ?_, ?_⟩
  · intro hcv hbmu
    simp only [parseOldManifest, hcv, hbmu, Option.getD_none]
    rfl
  · intro e
    rfl
  · intro j hj
    cases j with
    | null => exact ⟨_, rfl⟩
    | bool b => exact ⟨_, rfl⟩
    | num i => exact ⟨_, rfl⟩
    | str s => exact ⟨_, rfl⟩
    | arr xs => exact ⟨_, rfl⟩
    | obj kvs2 => exact absurd rfl (hj kvs2)
  · intro vj hvj hnone
    have hp : parseOldManifest (Except.ok (Json.obj kvs)) =
        Except.error ("ERROR: "
          ++ ("STRICT_VERSIONING: cannot parse existing docs/latest.json: "
          ++ pyIntErrMsg vj)) := by
      simp only [parseOldManifest, hvj, Option.getD_some, hnone, _fail]
    refine ⟨"ERROR: " ++ ("STRICT_VERSIONING: cannot parse existing docs/latest.json: "
      ++ pyIntErrMsg vj), ?_⟩
    unfold strictGate
    rw [hp]

theorem claim_C10_amended_witness :
    parseOldManifest (Except.ok (Json.obj [("note", Json.str "x")])) = Except.ok (0, "") :=
  (claim_C10_amended [("note", Json.str "x")] 0 "" "" none).1 rfl rfl

theorem strStarts_of_eq (c d s : String) (h : s = c ++ d) : strStarts c s := ⟨d, h⟩

theorem strStarts_split (a b c d : String) (hcd : a ++ b = c ++ d) (s : String) :
    strStarts c (a ++ (b ++ s)) :=
  ⟨d ++ s, by rw [← String.append_assoc, hcd, String.append_assoc]⟩

theorem strContains_last (a b x : String) : strContains x (a ++ (b ++ x)) :=
  ⟨a ++ b, "", by rw [String.append_empty, String.append_assoc]⟩

theorem strContains_mid (a b x r : String) : strContains x (a ++ (b ++ (x ++ r))) :=
  ⟨a ++ b, r, by rw [String.append_assoc]⟩

/-- C7, counterexample: the fatal message raised by the songs row validator
for a blank title in sheet row 2 is `ERROR: songs: empty title for id=x`,
which contains no decimal digit at all, hence does not name the 1-based row
number of the offending row; the validators never receive the row index. -/
theorem claim_C7_counterexample :
    processSongs [("id", 0), ("title", 1)] 2 [[some "x", some " "]] [] =
      Except.error "ERROR: songs: empty title for id=x" ∧
    msgHasDigit "ERROR: songs: empty title for id=x" = false := by
  constructor
  · rfl
  · rfl

/-- C7, amended: every fatal error raised by a row validator carries a
message that names the sheet (the message starts with the sheet name after
the `ERROR: ` marker) and contains the offending id when one was read; the
1-based row number appears only in the errors raised by the aggregation loops
(duplicate id, duplicate version id, duplicate term, unknown songId), not in
the validators' own messages. -/
theorem claim_C7_amended_validator_messages :
    ∀ (row : Row) (h : List (String × Nat)),
      (∀ e, build_song_dict row h = Except.error e →
        strStarts "ERROR: songs:" e ∧
        (_s (get_cell row h "id") ≠ "" → strContains (_s (get_cell row h "id")) e)) ∧
      (∀ e, build_version_dict row h = Except.error e →
        strStarts "ERROR: versions:" e ∧
        (_s (get_cell row h "songId") ≠ "" →
          strContains (_s (get_cell row h "songId")) e)) ∧
      (∀ e, build_glossary_item row h = Except.error e →
        strStarts "ERROR: glossary:" e ∧
        (_s (get_cell row h "songId") ≠ "" →
          strContains (_s (get_cell row h "songId")) e)) := by
  intro row h
  refine ⟨?_, ?_, ?_⟩
  · intro e he
    by_cases h1 : _s (get_cell row h "id") = ""
    · simp only [build_song_dict, h1, if_true, ite_true, _fail, Except.error.injEq] at he
      subst he
      exact ⟨strStarts_of_eq _ " empty id" _ (by decide), fun hc => absurd h1 hc⟩
    · by_cases h2 : _s (get_cell row h "title") = ""
      · simp only [build_song_dict, h1, h2, if_false, if_true, ite_true, ite_false,
          _fail, Except.error.injEq] at he
        subst he
        exact ⟨strStarts_split "ERROR: " "songs: empty title for id=" "ERROR: songs:"
            " empty title for id=" (by decide) _,
          fun _ => strContains_last "ERROR: " "songs: empty title for id=" _⟩
      · by_cases h3 : _s (get_cell row h "hub") = ""
        · simp only [build_song_dict, h1, h2, h3, if_false, if_true, ite_true, ite_false,
            _fail, Except.error.injEq] at he
          subst he
          exact ⟨strStarts_split "ERROR: " "songs: empty hub for id=" "ERROR: songs:"
              " empty hub for id=" (by decide) _,
            fun _ => strContains_last "ERROR: " "songs: empty hub for id=" _⟩
        · by_cases h4 : _s (get_cell row h "lyrics") = ""
          · simp only [build_song_dict, h1, h2, h3, h4, if_false, if_true, ite_true,
              ite_false, _fail, Except.error.injEq] at he
            subst he
            exact ⟨strStarts_split "ERROR: " "songs: empty lyrics for id=" "ERROR: songs:"
                " empty lyrics for id=" (by decide) _,
              fun _ => strContains_last "ERROR: " "songs: empty lyrics for id=" _⟩
          · simp [build_song_dict, h1, h2, h3, h4] at he
  · intro e he
    by_cases h1 : _s (get_cell row h "songId") = ""
    · simp only [build_version_dict, h1, if_true, ite_true, _fail, Except.error.injEq] at he
      subst he
      exact ⟨strStarts_of_eq _ " empty songId" _ (by decide), fun hc => absurd h1 hc⟩
    · by_cases h2 : _s (get_cell row h "id") = ""
      · simp only [build_version_dict, h1, h2, if_false, if_true, ite_true, ite_false,
          _fail, Except.error.injEq] at he
        subst he
        exact ⟨strStarts_split "ERROR: " "versions: empty id for songId=" "ERROR: versions:"
            " empty id for songId=" (by decide) _,
          fun _ => strContains_last "ERROR: " "versions: empty id for songId=" _⟩
      · simp [build_version_dict, h1, h2] at he
  · intro e he
    by_cases h1 : _s (get_cell row h "songId") = ""
    · simp only [build_glossary_item, h1, if_true, ite_true, _fail, Except.error.injEq] at he
      subst he
      exact ⟨strStarts_of_eq _ " empty songId" _ (by decide), fun hc => absurd h1 hc⟩
    · by_cases h2 : _s (get_cell row h "term") = ""
      · simp only [build_glossary_item, h1, h2, if_false, if_true, ite_true, ite_false,
          _fail, Except.error.injEq] at he
        subst he
        exact ⟨strStarts_split "ERROR: " "glossary: empty term for songId=" "ERROR: glossary:"
            " empty term for songId=" (by decide) _,
          fun _ => strContains_last "ERROR: " "glossary: empty term for songId=" _⟩
      · by_cases h3 : _s (get_cell row h "definition") = ""
        · simp only [build_glossary_item, h1, h2, h3, if_false, if_true, ite_true,
            ite_false, _fail, Except.error.injEq] at he
          subst he
          exact ⟨strStarts_split "ERROR: " "glossary: empty definition for songId="
              "ERROR: glossary:" " empty definition for songId=" (by decide) _,
            fun _ => strContains_mid "ERROR: " "glossary: empty definition for songId=" _ _⟩
        · simp [build_glossary_item, h1, h2, h3] at he

theorem claim_C7_amended_witness :
    strStarts "ERROR: songs:" "ERROR: songs: empty title for id=x" ∧
    strContains (_s (get_cell [some "x", some " "] [("id", 0), ("title", 1)] "id"))
      "ERROR: songs: empty title for id=x" := by
  have h := (claim_C7_amended_validator_messages [some "x", some " "]
    [("id", 0), ("title", 1)]).1 "ERROR: songs: empty title for id=x" rfl
  exact ⟨h.1, h.2 (by decide)⟩

theorem mainRun_ok_struct {wb : Workbook} {env : String}
    {ol os : Option (Except String Json)} {now : String} {out : Output}
    (hrun : mainRun (some wb) env ol os now = Except.ok out) :
    ∃ sbi sbi2 sbi3,
      processSongs (sheetHeaders (sheetOf wb "songs")) 2 ((sheetOf wb "songs").drop 1) []
        = Except.ok sbi ∧
      processVersions (sheetHeaders (sheetOf wb "versions")) 2
        ((sheetOf wb "versions").drop 1) sbi [] = Except.ok sbi2 ∧
      processGlossary (sheetHeaders (sheetOf wb "glossary")) 2
        ((sheetOf wb "glossary").drop 1) sbi2 [] = Except.ok sbi3 ∧
      out.songs = (List.insertionSort (fun a b => a ≤ b) (sbi3.map Prod.fst)).filterMap
        (fun k => dictGet sbi3 k) := by
  obtain ⟨c, hbc, hout⟩ := mainRun_ok hrun
  obtain ⟨cv, bmu, sbi, sbi2, sbi3, _, hsongs, hvers, hglos, hcsongs, _, _, _⟩ :=
    buildContent_ok hbc
  refine ⟨sbi, sbi2, sbi3, songsStage_ok hsongs, versionsStage_ok hvers,
    glossaryStage_ok hglos, ?_⟩
  rw [hout]
  exact hcsongs

theorem pipeline_rec_struct
    {hsH hvH hgH : List (String × Nat)} {srows vrows grows : List Row}
    {sbi sbi2 sbi3 : List (String × SongRec)}
    (hps : processSongs hsH 2 srows [] = Except.ok sbi)
    (hpv : processVersions hvH 2 vrows sbi [] = Except.ok sbi2)
    (hpg : processGlossary hgH 2 grows sbi2 [] = Except.ok sbi3) :
    ∀ k rec, dictGet sbi3 k = some rec →
      rec.id = k ∧ rec.versions = versionsFor hvH k vrows ∧
      rec.glossary = glossaryFor hgH k grows := by
  intro k rec hget3
  rw [processGlossary_lookup hpg k] at hget3
  obtain ⟨rec2, hget2, hrec2⟩ := Option.map_eq_some'.mp hget3
  rw [processVersions_lookup hpv k] at hget2
  obtain ⟨rec1, hget1, hrec1⟩ := Option.map_eq_some'.mp hget2
  have hmem1 := mem_of_dictGet hget1
  rcases processSongs_entries hps _ hmem1 with hin | ⟨hid, hver, hglo⟩
  · exact absurd hin (List.not_mem_nil _)
  · subst hrec2
    subst hrec1
    simp only at hid hver hglo
    refine ⟨?_, ?_, ?_⟩
    · simp [hid.symm]
    · simp [hver]
    · simp [hglo]

theorem pipeline_keys_iff
    {hvH hgH : List (String × Nat)} {vrows grows : List Row}
    {sbi sbi2 sbi3 : List (String × SongRec)}
    (hpv : processVersions hvH 2 vrows sbi [] = Except.ok sbi2)
    (hpg : processGlossary hgH 2 grows sbi2 [] = Except.ok sbi3) :
    ∀ s, (dictGet sbi3 s).isSome ↔ (dictGet sbi s).isSome := by
  intro s
  rw [processGlossary_lookup hpg s, processVersions_lookup hpv s]
  cases dictGet sbi s <;> simp

/-- C5: for every successful run, the output song list is sorted
lexicographically by id (whatever the input row order was), and each output
song's `versions` and `glossary` lists are exactly the records contributed by
the version/glossary sheet rows that reference it, in sheet row order. -/
theorem claim_C5_sorted_output_ordered_children :
    ∀ (wb : Workbook) (env : String) (ol os : Option (Except String Json))
      (now : String) (out : Output),
      mainRun (some wb) env ol os now = Except.ok out →
      List.Sorted (fun a b : String => a ≤ b) (out.songs.map SongRec.id) ∧
      ∀ rec ∈ out.songs,
        rec.versions = versionsFor (sheetHeaders (sheetOf wb "versions")) rec.id
          ((sheetOf wb "versions").drop 1) ∧
        rec.glossary = glossaryFor (sheetHeaders (sheetOf wb "glossary")) rec.id
          ((sheetOf wb "glossary").drop 1) := by
  intro wb env ol os now out hrun
  obtain ⟨sbi, sbi2, sbi3, hps, hpv, hpg, hsongs⟩ := mainRun_ok_struct hrun
  have hstruct := pipeline_rec_struct hps hpv hpg
  have hkey : ∀ k ∈ List.insertionSort (fun a b : String => a ≤ b) (sbi3.map Prod.fst),
      ∃ rec, dictGet sbi3 k = some rec ∧ rec.id = k := by
    intro k hk
    have hk3 : k ∈ sbi3.map Prod.fst := (List.perm_insertionSort _ _).mem_iff.mp hk
    obtain ⟨rec, hrec⟩ := Option.isSome_iff_exists.mp ((dictGet_isSome_iff sbi3 k).mpr hk3)
    exact ⟨rec, hrec, (hstruct k rec hrec).1⟩
  constructor
  · rw [hsongs, filterMap_dictGet_map_id hkey]
    exact List.sorted_insertionSort _ _
  · intro rec hrec
    rw [hsongs] at hrec
    obtain ⟨k, _, hget3⟩ := List.mem_filterMap.mp hrec
    obtain ⟨hid, hver, hglo⟩ := hstruct k rec hget3
    rw [hid]
    exact ⟨hver, hglo⟩

theorem claim_C5_witness :
    List.Sorted (fun a b : String => a ≤ b) (outEx.songs.map SongRec.id) :=
  (claim_C5_sorted_output_ordered_children wbEx "" none none
    "2026-01-01T00:00:00Z" outEx rfl).1

/-- C6: a successful run certifies referential integrity — every non-blank
row of the versions sheet and of the glossary sheet carries a `songId` that is
the id of an output song; contrapositively, a workbook with an unresolved
reference can only produce `Except.error` (a fatal abort), and by C2 an
aborted run writes no output. -/
theorem claim_C6_references_resolved :
    ∀ (wb : Workbook) (env : String) (ol os : Option (Except String Json))
      (now : String) (out : Output),
      mainRun (some wb) env ol os now = Except.ok out →
      (∀ row ∈ (sheetOf wb "versions").drop 1, rowBlank row = false →
        _s (get_cell row (sheetHeaders (sheetOf wb "versions")) "songId") ∈
          out.songs.map SongRec.id) ∧
      (∀ row ∈ (sheetOf wb "glossary").drop 1, rowBlank row = false →
        _s (get_cell row (sheetHeaders (sheetOf wb "glossary")) "songId") ∈
          out.songs.map SongRec.id) := by
  intro wb env ol os now out hrun
  obtain ⟨sbi, sbi2, sbi3, hps, hpv, hpg, hsongs⟩ := mainRun_ok_struct hrun
  have hstruct := pipeline_rec_struct hps hpv hpg
  have hkey : ∀ k ∈ List.insertionSort (fun a b : String => a ≤ b) (sbi3.map Prod.fst),
      ∃ rec, dictGet sbi3 k = some rec ∧ rec.id = k := by
    intro k hk
    have hk3 : k ∈ sbi3.map Prod.fst := (List.perm_insertionSort _ _).mem_iff.mp hk
    obtain ⟨rec, hrec⟩ := Option.isSome_iff_exists.mp ((dictGet_isSome_iff sbi3 k).mpr hk3)
    exact ⟨rec, hrec, (hstruct k rec hrec).1⟩
  have hids : out.songs.map SongRec.id
      = List.insertionSort (fun a b : String => a ≤ b) (sbi3.map Prod.fst) := by
    rw [hsongs, filterMap_dictGet_map_id hkey]
  have hmem3 : ∀ s, (dictGet sbi3 s).isSome → s ∈ out.songs.map SongRec.id := by
    intro s hsome
    rw [hids]
    exact (List.perm_insertionSort _ _).mem_iff.mpr ((dictGet_isSome_iff sbi3 s).mp hsome)
  constructor
  · intro row hrow hblank
    obtain ⟨sid, ver, hb, hsome⟩ := processVersions_refs hpv row hrow hblank
    obtain ⟨hsid, _, _⟩ := build_version_dict_ok hb
    have hsome2 : (dictGet sbi2 sid).isSome := by
      rw [processVersions_lookup hpv sid]
      cases hg : dictGet sbi sid
      · rw [hg] at hsome; simp at hsome
      · simp
    have hsome3 : (dictGet sbi3 sid).isSome := by
      rw [processGlossary_lookup hpg sid]
      cases hg : dictGet sbi2 sid
      · rw [hg] at hsome2; simp at hsome2
      · simp
    exact hsid ▸ hmem3 sid hsome3
  · intro row hrow hblank
    obtain ⟨sid, item, hb, hsome2⟩ := processGlossary_refs hpg row hrow hblank
    obtain ⟨hsid, _, _⟩ := build_glossary_item_ok hb
    have hsome3 : (dictGet sbi3 sid).isSome := by
      rw [processGlossary_lookup hpg sid]
      cases hg : dictGet sbi2 sid
      · rw [hg] at hsome2; simp at hsome2
      · simp
    exact hsid ▸ hmem3 sid hsome3

theorem claim_C6_witness :
    _s (get_cell [some "a", some "v1", some "http://x"]
        (sheetHeaders (sheetOf wbEx "versions")) "songId") ∈
      outEx.songs.map SongRec.id :=
  (claim_C6_references_resolved wbEx "" none none "2026-01-01T00:00:00Z" outEx rfl).1
    [some "a", some "v1", some "http://x"] (by decide) (by decide)
